import Mathlib

/-!
Verification development for the attendance-tracking voice-skill backend
(src/api/alexa.js).  The data model and the operations named by the claims
are embedded shallowly:

* ISO date strings ("YYYY-MM-DD") are represented by their day number
  (days since 1970-01-01).  For the fixed-width ISO format, string equality
  and lexicographic order agree with equality and chronological order of
  day numbers, so string-keyed containers become day-number-keyed
  containers.  Date.getDay() becomes the weekday function below.
* JavaScript objects used as string-keyed maps (userData.records) become
  association lists queried with List.lookup.
* The nondeterministic random suffix of Math.random().toString(36)
  .substring(2, 6) is passed in as an explicit parameter.
* createdAt timestamps are represented by a Nat (ISO datetime strings
  compare lexicographically in chronological order).
* Firestore reads/writes are made explicit: each operation takes the
  stored document and returns the updated document or result.
-/

namespace Attendance

/-! ### Date and calendar utilities -/

/-- Weekday of a day number (days since 1970-01-01, which was a Thursday);
0 = Sunday .. 6 = Saturday, as returned by Date.getDay(). -/
def weekday (day : Nat) : Nat := (day + 4) % 7

/-- Gregorian leap-year rule. -/
def isLeapYear (y : Nat) : Bool :=
  (y % 4 == 0 && y % 100 != 0) || y % 400 == 0

/-- Number of days in a month, matching new Date(year, month, 0).getDate(). -/
def daysInMonth (y m : Nat) : Nat :=
  if m == 2 then (if isLeapYear y then 29 else 28)
  else if m == 4 || m == 6 || m == 9 || m == 11 then 30
  else 31

/-- Day number (days since 1970-01-01) of a civil date y-m-d; valid for
dates from 1970 on.  Standard civil-calendar conversion. -/
def daysFromCivil (y m d : Nat) : Nat :=
  let y' := if m ≤ 2 then y - 1 else y
  let era := y' / 400
  let yoe := y' % 400
  let mp := if m > 2 then m - 3 else m + 9
  let doy := (153 * mp + 2) / 5 + d - 1
  let doe := yoe * 365 + yoe / 4 - yoe / 100 + doy
  era * 146097 + doe - 719468

/-- Civil date (year, month, day) of a day number; inverse of
daysFromCivil on dates from 1970 on. -/
def civilFromDays (z : Nat) : Nat × Nat × Nat :=
  let z' := z + 719468
  let era := z' / 146097
  let doe := z' % 146097
  let yoe := (doe - doe / 1460 + doe / 36524 - doe / 146096) / 365
  let y := yoe + era * 400
  let doy := doe - (365 * yoe + yoe / 4 - yoe / 100)
  let mp := (5 * doy + 2) / 153
  let d := doy - (153 * mp + 2) / 5 + 1
  let m := if mp < 10 then mp + 3 else mp - 9
  (if m ≤ 2 then y + 1 else y, m, d)

/-- JavaScript's toLowerCase (for the ASCII strings the skill handles),
defined structurally over the character list so that terms evaluate by
kernel reduction. -/
def lowerStr (s : String) : String := String.mk (s.data.map Char.toLower)

/-- Math.round(p / t * 100) for nonnegative integers p, t with t > 0,
computed exactly (round half up): floor((p / t) * 100 + 1/2). -/
def roundPct (p t : Nat) : Nat := (200 * p + t) / (2 * t)

/-! ### Data model -/

/-- One entry of the sessions list of a user document. -/
structure Session where
  name : String
  code : String
  startDate : Option Nat
  endDate : Option Nat
  createdAt : Nat
  isSelected : Bool
deriving DecidableEq

/-- The per-user attendance document (collection attendance/{key}).
Missing fields of a Firestore document are the defaults below, matching
the userData.field || fallback reads in the source. -/
structure UserData where
  records : List (Nat × Bool) := []
  holidays : List (Nat × String) := []
  notEnrolled : List Nat := []
  sessions : List Session := []
  weeklyDaysOff : List Nat := []
deriving DecidableEq

/-- Function isNonWorkingDay(dateStr, userData): Sunday is unconditionally
non-working, then the configured weekly days off are checked. -/
def isNonWorkingDay (day : Nat) (ud : UserData) : Bool :=
  let dayOfWeek := weekday day
  if dayOfWeek == 0 then true
  else ud.weeklyDaysOff.contains dayOfWeek

/-! ### Day status (getDayStatus / setDayStatus) -/

/-- The value getDayStatus returns for a recorded day: the polymorphic
JavaScript shape ('present' | 'absent' | status-object | 'not-enrolled')
as a tagged variant. -/
inductive DayVal where
  | present
  | absent
  | holiday (name : String)
  | notEnrolled
deriving DecidableEq

/-- Function getDayStatus(attendanceKey, date): records first, then
holidays, then notEnrolled, else null. -/
def getDayStatus (ud : UserData) (day : Nat) : Option DayVal :=
  match ud.records.lookup day with
  | some b => some (if b then .present else .absent)
  | none =>
    match ud.holidays.find? (fun h => h.1 == day) with
    | some h => some (.holiday h.2)
    | none =>
      if ud.notEnrolled.contains day then some .notEnrolled else none

/-- Function setDayStatus(attendanceKey, date, status, extraData): the date
is first deleted from records and filtered out of holidays and
notEnrolled, then added to the container selected by the status string.
The holidayName of extraData defaults to "Holiday". -/
def setDayStatus (ud : UserData) (day : Nat) (status : String)
    (holidayName : Option String) : UserData :=
  let records := ud.records.filter (fun p => p.1 != day)
  let holidays := ud.holidays.filter (fun h => h.1 != day)
  let notEnrolled := ud.notEnrolled.filter (fun d => d != day)
  if status = "present" then
    { ud with records := records ++ [(day, true)], holidays := holidays,
              notEnrolled := notEnrolled }
  else if status = "absent" then
    { ud with records := records ++ [(day, false)], holidays := holidays,
              notEnrolled := notEnrolled }
  else if status = "holiday" then
    { ud with records := records,
              holidays := holidays ++ [(day, holidayName.getD "Holiday")],
              notEnrolled := notEnrolled }
  else if status = "not-enrolled" then
    { ud with records := records, holidays := holidays,
              notEnrolled := notEnrolled ++ [day] }
  else
    { ud with records := records, holidays := holidays,
              notEnrolled := notEnrolled }

/-- Whether records has an entry for the day (records[date] defined). -/
def hasRecord (ud : UserData) (day : Nat) : Bool :=
  (ud.records.lookup day).isSome

/-- Whether holidays contains an entry with the given date. -/
def hasHoliday (ud : UserData) (day : Nat) : Bool :=
  ud.holidays.any (fun h => h.1 == day)

/-- Whether notEnrolled contains the given date. -/
def hasNotEnrolled (ud : UserData) (day : Nat) : Bool :=
  ud.notEnrolled.contains day

/-- The three membership flags of a date, bundled. -/
def containerFlags (ud : UserData) (day : Nat) : Bool × Bool × Bool :=
  (hasRecord ud day, hasHoliday ud day, hasNotEnrolled ud day)

/-! ### Attendance calculations -/

/-- One iteration body shared by both attendance loops: skip non-working
days, holidays and not-enrolled days; otherwise count the day as working
and as present when records[date] === true.  The accumulator is
(presentDays, totalWorkingDays). -/
def sessStep (ud : UserData) (acc : Nat × Nat) (day : Nat) : Nat × Nat :=
  if isNonWorkingDay day ud then acc
  else if ud.holidays.any (fun h => h.1 == day) then acc
  else if ud.notEnrolled.contains day then acc
  else ((if ud.records.lookup day == some true then acc.1 + 1 else acc.1),
        acc.2 + 1)

/-- One iteration of the calculateMonthlyAttendance loop: days after today
are skipped first (dateStr > today continue), then as in sessStep. -/
def monthStep (ud : UserData) (today : Nat) (acc : Nat × Nat) (day : Nat) :
    Nat × Nat :=
  if today < day then acc else sessStep ud acc day

/-- The (presentDays, totalWorkingDays) pair of the monthly loop over
day 1 .. daysInMonth of the given year-month. -/
def monthlyTally (ud : UserData) (year month today : Nat) : Nat × Nat :=
  (List.range (daysInMonth year month)).foldl
    (fun acc i => monthStep ud today acc (daysFromCivil year month (i + 1)))
    (0, 0)

/-- Function calculateMonthlyAttendance(attendanceKey, yearMonth): the
percentage, with the zero-working-days guard of the source. -/
def calculateMonthlyAttendance (ud : UserData) (year month today : Nat) :
    Nat :=
  let pt := monthlyTally ud year month today
  if 0 < pt.2 then roundPct pt.1 pt.2 else 0

/-- A day of the month is eligible (counted as working) iff it is not
after today, not a non-working day, not a holiday and not not-enrolled:
exactly the condition under which the loop body counts it. -/
def eligibleDay (ud : UserData) (today day : Nat) : Bool :=
  !(today < day) && !(isNonWorkingDay day ud)
    && !(ud.holidays.any (fun h => h.1 == day))
    && !(ud.notEnrolled.contains day)

/-- The while loop of calculateSessionAttendance: run from current while
currentDate <= end && currentDate <= today, stepping one day at a time. -/
def sessionLoop (ud : UserData) (endD today current : Nat)
    (acc : Nat × Nat) : Nat × Nat :=
  if h : current ≤ endD ∧ current ≤ today then
    sessionLoop ud endD today (current + 1) (sessStep ud acc current)
  else acc
termination_by endD + 1 - current
decreasing_by omega

/-- Window resolution of calculateSessionAttendance: the isSelected
session first (its missing endDate defaulting to today, its empty name to
"current session"), else a name/code match for the given hint, else the
current calendar year. -/
def resolveSessionWindow (ud : UserData) (sessionName : Option String)
    (today : Nat) : Nat × Nat × String :=
  let sessions := ud.sessions
  let selected := sessions.find? (fun s => s.isSelected)
  let first : Option Nat × Option Nat × String :=
    match selected with
    | some s => (s.startDate, some (s.endDate.getD today),
                 if s.name = "" then "current session" else s.name)
    | none => (none, none, "current session")
  let second : Option Nat × Option Nat × String :=
    if (first.1.isNone || first.2.1.isNone) && sessionName.isSome then
      match sessionName with
      | some nm =>
        match sessions.find?
            (fun s => lowerStr s.name == lowerStr nm || s.code == nm) with
        | some s => (s.startDate, s.endDate, s.name)
        | none => first
      | none => first
    else first
  match second with
  | (some a, some b, used) => (a, b, used)
  | (_, _, _) =>
    let y := (civilFromDays today).1
    (daysFromCivil y 1 1, daysFromCivil y 12 31, "current year")

/-- The record calculateSessionAttendance returns. -/
structure SessionResult where
  percentage : Nat
  sessionName : String
  presentDays : Nat
  totalWorkingDays : Nat
deriving DecidableEq

/-- Function calculateSessionAttendance(attendanceKey, sessionName):
resolve the window, run the day loop, divide with the zero guard. -/
def calculateSessionAttendance (ud : UserData) (sessionName : Option String)
    (today : Nat) : SessionResult :=
  let w := resolveSessionWindow ud sessionName today
  let pt := sessionLoop ud w.2.1 today w.1 (0, 0)
  { percentage := if 0 < pt.2 then roundPct pt.1 pt.2 else 0
    sessionName := w.2.2
    presentDays := pt.1
    totalWorkingDays := pt.2 }

/-- The day loop run over the window that ends today: the counts a window
clamped at today produces. -/
def attendanceUpTo (ud : UserData) (start today : Nat) : Nat × Nat :=
  sessionLoop ud today today start (0, 0)

/-! ### Session management -/

/-- The match predicate of setAlexaPresetSession: exact code match OR
(truthy name AND case-insensitive name match), checked per session in a
single scan. -/
def presetPred (id : String) (s : Session) : Bool :=
  s.code == id || (s.name != "" && lowerStr s.name == lowerStr id)

/-- Result of setAlexaPresetSession: the source's
{success: false, error: 'No sessions found'} and
{success: false, error: 'Session not found'} and
{success: true, session} shapes, the updated list made explicit. -/
inductive PresetResult where
  | noSessions
  | notFound
  | ok (sessions : List Session) (found : Session)
deriving DecidableEq

/-- Function setAlexaPresetSession(attendanceKey, sessionIdentifier):
first match of the OR predicate; on success every session's isSelected
becomes (session.code === found.code). -/
def setAlexaPresetSession (sessions : List Session) (id : String) :
    PresetResult :=
  if sessions.isEmpty then .noSessions
  else
    match sessions.find? (presetPred id) with
    | none => .notFound
    | some found =>
      .ok (sessions.map (fun s => { s with isSelected := s.code == found.code }))
        found

/-- Number of isSelected sessions in an ok result (none for failures). -/
def okSelectedCount : PresetResult → Option Nat
  | .ok l _ => some ((l.filter (fun s => s.isSelected)).length)
  | _ => none

/-- Code of the session an ok result resolved (none for failures). -/
def okFoundCode : PresetResult → Option String
  | .ok _ f => some f.code
  | _ => none

/-- The base of generateSessionCode(sessionName): lower-cased, stripped to
[a-z0-9], truncated to 8 characters. -/
def codeBase (sessionName : String) : String :=
  String.mk (((lowerStr sessionName).toList.filter
    (fun c => c.isLower || c.isDigit)).take 8)

/-- Function generateSessionCode(sessionName) with the random suffix of
Math.random().toString(36).substring(2, 6) passed in explicitly. -/
def generateSessionCode (sessionName rand : String) : String :=
  codeBase sessionName ++ rand

/-- The findIndex predicate of saveSession: case-insensitive name match OR
exact match of the newly generated code. -/
def saveMatch (sessionName code : String) (s : Session) : Bool :=
  lowerStr s.name == lowerStr sessionName || s.code == code

/-- Replace the first entry satisfying the predicate, else append: the
findIndex / updatedSessions[existingIndex] = sessionData / push logic of
saveSession. -/
def upsertEntry (a : Session) (pred : Session → Bool) :
    List Session → List Session
  | [] => [a]
  | s :: ss => if pred s then a :: ss else s :: upsertEntry a pred ss

/-- Descending-createdAt order used by the final sort of saveSession
((a, b) => new Date(b.createdAt) - new Date(a.createdAt)). -/
def createdGe (a b : Session) : Prop := b.createdAt ≤ a.createdAt

instance : DecidableRel createdGe := fun a b => Nat.decLe b.createdAt a.createdAt

instance : IsTotal Session createdGe :=
  ⟨fun a b => by unfold createdGe; omega⟩

instance : IsTrans Session createdGe :=
  ⟨fun a b c h1 h2 => by unfold createdGe at *; omega⟩

/-- Function saveSession(attendanceKey, sessionName, startDate, endDate,
setAsPreset): generate a code, build the new entry, replace the first
name-or-code match (else append), optionally make the new code the only
selected one, then sort descending by createdAt. -/
def saveSession (sessions : List Session) (sessionName : String)
    (startDate endDate : Nat) (setAsPreset : Bool) (rand : String)
    (now : Nat) : List Session :=
  let sessionCode := generateSessionCode sessionName rand
  let sessionData : Session :=
    { name := sessionName, code := sessionCode, startDate := some startDate,
      endDate := some endDate, createdAt := now, isSelected := setAsPreset }
  let updated := upsertEntry sessionData (saveMatch sessionName sessionCode)
    sessions
  let updated2 :=
    if setAsPreset then
      updated.map (fun s => { s with isSelected := s.code == sessionCode })
    else updated
  List.insertionSort createdGe updated2

/-- Sessions whose name equals the identifier case-insensitively, as
filtered by SelectSessionIntentHandler. -/
def nameMatches (sessions : List Session) (id : String) : List Session :=
  sessions.filter (fun s => lowerStr s.name == lowerStr id)

/-- Outcome of the resolution logic of SelectSessionIntentHandler:
exact code match, unique name match, ambiguous name matches (all of them,
whose codes and date ranges the handler reads out), or not found. -/
inductive SelectResolution where
  | byCode (s : Session)
  | byName (s : Session)
  | ambiguous (hits : List Session)
  | notFound
deriving DecidableEq

/-- The resolution logic of SelectSessionIntentHandler: try an exact code
match over the whole list first; only when none exists, collect the
case-insensitive name matches and branch on how many there are. -/
def resolveSelect (sessions : List Session) (id : String) :
    SelectResolution :=
  match sessions.find? (fun s => s.code == id) with
  | some s => .byCode s
  | none =>
    match nameMatches sessions id with
    | [] => .notFound
    | [s] => .byName s
    | s :: t :: rest => .ambiguous (s :: t :: rest)

/-! ### Mark-present intent -/

/-- Outcome of MarkPresentIntentHandler on the happy paths: rejected as a
non-working day, already present, awaiting confirmation of a status
change, or marked. -/
inductive MarkOutcome where
  | nonWorkingDay
  | alreadyMarked
  | confirmPending (oldStatus : DayVal)
  | marked
deriving DecidableEq

/-- The core of MarkPresentIntentHandler: the non-working-day check comes
first and short-circuits with no write; an existing status leads to the
already-marked reply or a pending confirmation (again no write); only a
fresh day is written through setDayStatus. -/
def markPresent (ud : UserData) (today : Nat) : MarkOutcome × UserData :=
  if isNonWorkingDay today ud then (.nonWorkingDay, ud)
  else
    match getDayStatus ud today with
    | some .present => (.alreadyMarked, ud)
    | some st => (.confirmPending st, ud)
    | none => (.marked, setDayStatus ud today "present" none)

/-! ### Concrete data for witnesses and counterexamples -/

/-- Two sessions that share the code "c": duplicate codes are not ruled
out by the store. -/
def dupCodeSessions : List Session :=
  [{ name := "A", code := "c", startDate := some 0, endDate := some 1,
     createdAt := 0, isSelected := false },
   { name := "B", code := "c", startDate := some 2, endDate := some 3,
     createdAt := 1, isSelected := false }]

/-- A list where an earlier session's name equals the identifier "abc"
case-insensitively while a later session's code is exactly "abc". -/
def shadowedCodeSessions : List Session :=
  [{ name := "abc", code := "zzzz", startDate := some 0, endDate := some 1,
     createdAt := 0, isSelected := false },
   { name := "bee", code := "abc", startDate := some 2, endDate := some 3,
     createdAt := 1, isSelected := false }]

/-- A stored session named "Term" with an old code. -/
def oldTermSession : Session :=
  { name := "Term", code := "oldcode1", startDate := some 0,
    endDate := some 10, createdAt := 5, isSelected := false }

/-- Two sessions both named "Fall" with distinct codes. -/
def fallSessions : List Session :=
  [{ name := "Fall", code := "fallab12", startDate := some 0,
     endDate := some 100, createdAt := 0, isSelected := false },
   { name := "Fall", code := "fallcd34", startDate := some 200,
     endDate := some 300, createdAt := 1, isSelected := false }]

/-- A document whose selected session ends on day 300. -/
def clampDoc : UserData :=
  { sessions := [{ name := "Fall", code := "fall1234", startDate := some 100,
                   endDate := some 300, createdAt := 0, isSelected := true }] }

/-- A document where every weekday is a configured day off. -/
def allDaysOffDoc : UserData :=
  { weeklyDaysOff := [1, 2, 3, 4, 5, 6] }

/-- A currently selected session named "Term" for the preset-drop witness. -/
def selectedTermSession : Session :=
  { name := "Term", code := "abcd1234", startDate := some 0,
    endDate := some 10, createdAt := 5, isSelected := true }

/-- Two sessions with distinct codes for the preset witness. -/
def presetDemo : List Session :=
  [{ name := "Fall", code := "aa11", startDate := some 0, endDate := some 1,
     createdAt := 3, isSelected := false },
   { name := "Spring", code := "bb22", startDate := some 2, endDate := some 3,
     createdAt := 4, isSelected := false }]

/-- The list setAlexaPresetSession produces on presetDemo for "fall". -/
def presetDemoUpd : List Session :=
  [{ name := "Fall", code := "aa11", startDate := some 0, endDate := some 1,
     createdAt := 3, isSelected := true },
   { name := "Spring", code := "bb22", startDate := some 2, endDate := some 3,
     createdAt := 4, isSelected := false }]

/-- The session setAlexaPresetSession resolves on presetDemo for "fall". -/
def presetDemoFound : Session :=
  { name := "Fall", code := "aa11", startDate := some 0, endDate := some 1,
    createdAt := 3, isSelected := false }

/-- The second of the two "Fall" sessions. -/
def fallSecond : Session :=
  { name := "Fall", code := "fallcd34", startDate := some 200,
    endDate := some 300, createdAt := 1, isSelected := false }

/-! ### Helper lemmas about the containers touched by setDayStatus -/

theorem lookup_filterNe (l : List (Nat × Bool)) (d : Nat) :
    (l.filter (fun p => p.1 != d)).lookup d = none := by
  induction l with
  | nil => rfl
  | cons p t ih =>
    by_cases h : p.1 = d
    · simp only [List.filter, h, bne_self_eq_false]
      exact ih
    · have hb : (p.1 != d) = true := by simpa using h
      simp only [List.filter, hb, List.lookup]
      have hk : (d == p.1) = false := by
        rw [beq_eq_false_iff_ne]
        exact fun e => h e.symm
      rw [hk]
      exact ih

theorem lookup_filterNe_append (l : List (Nat × Bool)) (d : Nat) (b : Bool) :
    ((l.filter (fun p => p.1 != d)) ++ [(d, b)]).lookup d = some b := by
  induction l with
  | nil => simp [List.lookup]
  | cons p t ih =>
    by_cases h : p.1 = d
    · simp only [List.filter, h, bne_self_eq_false]
      exact ih
    · have hb : (p.1 != d) = true := by simpa using h
      simp only [List.filter, hb, List.cons_append, List.lookup]
      have hk : (d == p.1) = false := by
        rw [beq_eq_false_iff_ne]
        exact fun e => h e.symm
      rw [hk]
      exact ih

theorem any_filterNe (l : List (Nat × String)) (d : Nat) :
    ((l.filter (fun h => h.1 != d)).any (fun h => h.1 == d)) = false := by
  rw [List.any_eq_false]
  intro x hx
  have := List.of_mem_filter hx
  simpa using this

theorem any_filterNe_append (l : List (Nat × String)) (d : Nat) (nm : String) :
    (((l.filter (fun h => h.1 != d)) ++ [(d, nm)]).any (fun h => h.1 == d)) = true := by
  rw [List.any_eq_true]
  refine ⟨(d, nm), List.mem_append_right _ (List.mem_singleton.mpr rfl), ?_⟩
  exact beq_self_eq_true d

theorem contains_filterNe (l : List Nat) (d : Nat) :
    ((l.filter (fun x => x != d)).contains d) = false := by
  rw [List.contains_eq_any_beq, List.any_eq_false]
  intro x hx
  have hne : x ≠ d := by simpa using List.of_mem_filter hx
  exact fun hc => hne (Eq.symm (by simpa using hc))

theorem contains_filterNe_append (l : List Nat) (d : Nat) :
    (((l.filter (fun x => x != d)) ++ [d]).contains d) = true := by
  rw [List.contains_eq_any_beq, List.any_eq_true]
  refine ⟨d, List.mem_append_right _ (List.mem_singleton.mpr rfl), ?_⟩
  exact beq_self_eq_true d

/-! ### Helper lemmas for the monthly calculation -/

theorem monthStep_skip (ud : UserData) (today day : Nat) (acc : Nat × Nat)
    (h : eligibleDay ud today day = false) :
    monthStep ud today acc day = acc := by
  unfold monthStep sessStep
  by_cases h1 : today < day
  · rw [if_pos h1]
  · rw [if_neg h1]
    by_cases h2 : isNonWorkingDay day ud = true
    · rw [if_pos h2]
    · rw [if_neg h2]
      by_cases h3 : (ud.holidays.any (fun x => x.1 == day)) = true
      · rw [if_pos h3]
      · rw [if_neg h3]
        by_cases h4 : (ud.notEnrolled.contains day) = true
        · rw [if_pos h4]
        · exfalso
          have e1 : decide (today < day) = false := decide_eq_false h1
          have e2 : isNonWorkingDay day ud = false := Bool.eq_false_iff.mpr h2
          have e3 : (ud.holidays.any (fun x => x.1 == day)) = false :=
            Bool.eq_false_iff.mpr h3
          have e4 : (ud.notEnrolled.contains day) = false :=
            Bool.eq_false_iff.mpr h4
          unfold eligibleDay at h
          rw [e1, e2, e3, e4] at h
          simp at h

theorem foldl_monthStep_const (ud : UserData) (year month today : Nat) :
    ∀ (l : List Nat) (acc : Nat × Nat),
      (∀ i ∈ l, eligibleDay ud today (daysFromCivil year month (i + 1)) = false) →
      l.foldl (fun acc i => monthStep ud today acc (daysFromCivil year month (i + 1))) acc = acc
  | [], _, _ => rfl
  | i :: t, acc, h => by
    rw [List.foldl_cons, monthStep_skip ud today _ acc (h i (List.mem_cons_self i t))]
    exact foldl_monthStep_const ud year month today t acc
      (fun j hj => h j (List.mem_cons_of_mem i hj))

/-! ### Helper lemmas for the session loop -/

theorem sessionLoop_stop (ud : UserData) (endD today current : Nat)
    (acc : Nat × Nat) (h : ¬(current ≤ endD ∧ current ≤ today)) :
    sessionLoop ud endD today current acc = acc := by
  rw [sessionLoop]
  exact dif_neg h

theorem sessionLoop_go (ud : UserData) (endD today current : Nat)
    (acc : Nat × Nat) (h : current ≤ endD ∧ current ≤ today) :
    sessionLoop ud endD today current acc =
      sessionLoop ud endD today (current + 1) (sessStep ud acc current) := by
  conv_lhs => rw [sessionLoop]
  exact dif_pos h

theorem sessionLoop_clamp_aux (ud : UserData) (endD today : Nat)
    (hle : today ≤ endD) :
    ∀ (fuel current : Nat) (acc : Nat × Nat), today + 1 - current ≤ fuel →
      sessionLoop ud endD today current acc =
        sessionLoop ud today today current acc := by
  intro fuel
  induction fuel with
  | zero =>
    intro current acc hf
    have hc : ¬ current ≤ today := by omega
    rw [sessionLoop_stop ud endD today current acc (fun hh => hc hh.2),
        sessionLoop_stop ud today today current acc (fun hh => hc hh.2)]
  | succ n ih =>
    intro current acc hf
    by_cases hc : current ≤ today
    · rw [sessionLoop_go ud endD today current acc ⟨Nat.le_trans hc hle, hc⟩,
          sessionLoop_go ud today today current acc ⟨hc, hc⟩]
      exact ih (current + 1) _ (by omega)
    · rw [sessionLoop_stop ud endD today current acc (fun hh => hc hh.2),
          sessionLoop_stop ud today today current acc (fun hh => hc hh.2)]

theorem sessionLoop_clamp (ud : UserData) (endD today : Nat)
    (hle : today ≤ endD) (current : Nat) (acc : Nat × Nat) :
    sessionLoop ud endD today current acc =
      sessionLoop ud today today current acc :=
  sessionLoop_clamp_aux ud endD today hle (today + 1 - current) current acc
    (Nat.le_refl _)

/-! ### Helper lemmas for the preset and save logic -/

theorem find?_map_invariant (f : Session → Session) (p : Session → Bool)
    (hp : ∀ s, p (f s) = p s) :
    ∀ l : List Session, (l.map f).find? p = (l.find? p).map f := by
  intro l
  induction l with
  | nil => rfl
  | cons a t ih =>
    rw [List.map_cons]
    cases h : p a with
    | true =>
      rw [List.find?_cons_of_pos _ (by rw [hp]; exact h),
          List.find?_cons_of_pos _ h, Option.map_some']
    | false =>
      rw [List.find?_cons_of_neg _ (by rw [hp, h]; exact Bool.false_ne_true),
          List.find?_cons_of_neg _ (by rw [h]; exact Bool.false_ne_true)]
      exact ih

theorem filter_selected_map (found : Session) (l : List Session) :
    ((l.map (fun s => { s with isSelected := s.code == found.code })).filter
        (fun s => s.isSelected))
      = (l.filter (fun s => s.code == found.code)).map
          (fun s => { s with isSelected := s.code == found.code }) := by
  induction l with
  | nil => rfl
  | cons a t ih =>
    cases h : (a.code == found.code) with
    | true =>
      have hp : a.code = found.code := by simpa using h
      simp [List.filter_cons, hp, ih]
    | false =>
      have hp : ¬ a.code = found.code := by simpa using h
      simp [List.filter_cons, hp, ih]

theorem filter_code_nil (c : String) :
    ∀ l : List Session, c ∉ l.map (fun s => s.code) →
      l.filter (fun s => s.code == c) = [] := by
  intro l
  induction l with
  | nil => intro _; rfl
  | cons a t ih =>
    intro hn
    have ha : a.code ≠ c := by
      intro e
      exact hn (e ▸ List.mem_map.mpr ⟨a, List.mem_cons_self a t, rfl⟩)
    have hb : (a.code == c) = false := by
      rw [beq_eq_false_iff_ne]
      exact ha
    rw [List.filter_cons, hb]
    simp only [Bool.false_eq_true, if_false]
    exact ih (fun hm => hn (List.mem_map.mpr
      ⟨(List.mem_map.mp hm).choose,
       List.mem_cons_of_mem a (List.mem_map.mp hm).choose_spec.1,
       (List.mem_map.mp hm).choose_spec.2⟩))

theorem filter_code_singleton (a : Session) :
    ∀ l : List Session, (l.map (fun s => s.code)).Nodup → a ∈ l →
      l.filter (fun s => s.code == a.code) = [a] := by
  intro l
  induction l with
  | nil => intro _ hm; cases hm
  | cons s t ih =>
    intro hnd hm
    rw [List.map_cons, List.nodup_cons] at hnd
    rcases List.mem_cons.mp hm with rfl | hmt
    · rw [List.filter_cons, beq_self_eq_true a.code]
      simp only [if_true]
      rw [filter_code_nil a.code t hnd.1]
    · have hac : a.code ∈ t.map (fun s => s.code) :=
        List.mem_map.mpr ⟨a, hmt, rfl⟩
      have hne : s.code ≠ a.code := fun e => hnd.1 (e ▸ hac)
      have hb : (s.code == a.code) = false := by
        rw [beq_eq_false_iff_ne]; exact hne
      rw [List.filter_cons, hb]
      simp only [Bool.false_eq_true, if_false]
      exact ih hnd.2 hmt

/-! ### Helper lemmas for upsertEntry -/

theorem upsertEntry_mem (a : Session) (pred : Session → Bool) :
    ∀ l : List Session, a ∈ upsertEntry a pred l := by
  intro l
  induction l with
  | nil => exact List.mem_singleton.mpr rfl
  | cons s t ih =>
    unfold upsertEntry
    by_cases h : pred s = true
    · rw [if_pos h]; exact List.mem_cons_self a _
    · rw [if_neg h]; exact List.mem_cons_of_mem s ih

theorem upsertEntry_length (a : Session) (pred : Session → Bool) :
    ∀ l : List Session, (∃ s ∈ l, pred s = true) →
      (upsertEntry a pred l).length = l.length := by
  intro l
  induction l with
  | nil => rintro ⟨s, hs, _⟩; cases hs
  | cons s t ih =>
    intro h
    unfold upsertEntry
    by_cases hp : pred s = true
    · rw [if_pos hp, List.length_cons, List.length_cons]
    · rw [if_neg hp, List.length_cons, List.length_cons]
      rcases h with ⟨x, hx, hpx⟩
      rcases List.mem_cons.mp hx with rfl | hxt
      · exact absurd hpx hp
      · rw [ih ⟨x, hxt, hpx⟩]

theorem upsertEntry_decomp (a : Session) (pred : Session → Bool)
    (S : Session) (hS : pred S = true) :
    ∀ pre post : List Session, (∀ T ∈ pre, pred T = false) →
      upsertEntry a pred (pre ++ S :: post) = pre ++ a :: post := by
  intro pre
  induction pre with
  | nil =>
    intro post _
    rw [List.nil_append, List.nil_append]
    unfold upsertEntry
    rw [if_pos hS]
  | cons p t ih =>
    intro post hpre
    rw [List.cons_append, List.cons_append]
    unfold upsertEntry
    have hp : ¬ pred p = true := by
      rw [hpre p (List.mem_cons_self p t)]
      exact Bool.false_ne_true
    rw [if_neg hp, ih post (fun T hT => hpre T (List.mem_cons_of_mem p hT))]

/-! ### Claim theorems -/

/-- C1: for every user document and every date, after setDayStatus with a
status among present, absent, holiday and not-enrolled, exactly one of
the three containers holds the date — records for present/absent,
holidays for holiday, notEnrolled for not-enrolled — the date having been
deleted/filtered out of the other two first. -/
theorem setDayStatus_exclusive (ud : UserData) (day : Nat) (status : String)
    (hname : Option String)
    (h : status = "present" ∨ status = "absent" ∨ status = "holiday"
         ∨ status = "not-enrolled") :
    containerFlags (setDayStatus ud day status hname) day =
      (if status = "present" ∨ status = "absent" then (true, false, false)
       else if status = "holiday" then (false, true, false)
       else (false, false, true)) := by
  rcases h with rfl | rfl | rfl | rfl <;>
    simp [setDayStatus, containerFlags, hasRecord, hasHoliday, hasNotEnrolled,
      lookup_filterNe, lookup_filterNe_append, any_filterNe, any_filterNe_append,
      contains_filterNe, contains_filterNe_append]

/-- Witness for C1 at a concrete document, date and status. -/
theorem setDayStatus_exclusive_witness :
    (("holiday" : String) = "present" ∨ ("holiday" : String) = "absent"
      ∨ ("holiday" : String) = "holiday" ∨ ("holiday" : String) = "not-enrolled")
    ∧ containerFlags
        (setDayStatus { records := [(7, true)], notEnrolled := [7] } 7 "holiday"
          (some "Diwali")) 7 =
      (if ("holiday" : String) = "present" ∨ ("holiday" : String) = "absent"
       then (true, false, false)
       else if ("holiday" : String) = "holiday" then (false, true, false)
       else (false, false, true)) :=
  ⟨Or.inr (Or.inr (Or.inl rfl)),
   setDayStatus_exclusive { records := [(7, true)], notEnrolled := [7] } 7
     "holiday" (some "Diwali") (Or.inr (Or.inr (Or.inl rfl)))⟩

/-- C9: when today is a Sunday (weekday 0), the mark-present operation is
rejected with the non-working-day outcome unconditionally — whatever the
weeklyDaysOff set and the rest of the document — and the document is
returned unchanged: no setDayStatus write happens. -/
theorem markPresent_sunday_rejects (ud : UserData) (today : Nat)
    (h : weekday today = 0) :
    markPresent ud today = (MarkOutcome.nonWorkingDay, ud) := by
  have hnw : isNonWorkingDay today ud = true := by
    unfold isNonWorkingDay
    simp [h]
  unfold markPresent
  rw [if_pos hnw]

/-- Witness for C9 on 2024-03-10, a Sunday, with an empty document. -/
theorem markPresent_sunday_witness :
    weekday (daysFromCivil 2024 3 10) = 0
    ∧ markPresent {} (daysFromCivil 2024 3 10) =
        (MarkOutcome.nonWorkingDay, {}) :=
  ⟨by decide, markPresent_sunday_rejects {} (daysFromCivil 2024 3 10) (by decide)⟩

/-- C4: a month in which no day is eligible (each day is after today, a
Sunday, a configured weekly day off, a holiday, or not-enrolled) yields a
monthly percentage of exactly 0 — the zero-working-days guard fires, so no
division by zero happens — and whenever there are working days the result
is round(presentDays / workingDays times 100). -/
theorem monthlyPercentage_zero_safe (ud : UserData) (year month today : Nat) :
    ((∀ i ∈ List.range (daysInMonth year month),
        eligibleDay ud today (daysFromCivil year month (i + 1)) = false) →
      calculateMonthlyAttendance ud year month today = 0)
    ∧ (0 < (monthlyTally ud year month today).2 →
      calculateMonthlyAttendance ud year month today =
        roundPct (monthlyTally ud year month today).1
          (monthlyTally ud year month today).2) := by
  constructor
  · intro h
    have hz : monthlyTally ud year month today = (0, 0) := by
      unfold monthlyTally
      exact foldl_monthStep_const ud year month today _ (0, 0) h
    unfold calculateMonthlyAttendance
    rw [hz]
    rfl
  · intro h
    unfold calculateMonthlyAttendance
    rw [if_pos h]

/-- Witness for C4: with every weekday configured as a day off, March 2024
yields exactly 0. -/
theorem monthlyPercentage_zero_witness :
    calculateMonthlyAttendance allDaysOffDoc 2024 3 20000 = 0 :=
  (monthlyPercentage_zero_safe allDaysOffDoc 2024 3 20000).1 (by decide)

/-- C3: when the resolved session window's stored end date is strictly
after today, calculateSessionAttendance iterates days only up to and
including today: its counts (and hence its percentage) are those of the
window whose effective end is today, so days after today are not counted
as working or absent. -/
theorem sessionAttendance_clamps_to_today (ud : UserData)
    (sessionName : Option String) (today : Nat)
    (h : today < (resolveSessionWindow ud sessionName today).2.1) :
    calculateSessionAttendance ud sessionName today =
      { percentage :=
          if 0 < (attendanceUpTo ud (resolveSessionWindow ud sessionName today).1 today).2
          then roundPct
            (attendanceUpTo ud (resolveSessionWindow ud sessionName today).1 today).1
            (attendanceUpTo ud (resolveSessionWindow ud sessionName today).1 today).2
          else 0
        sessionName := (resolveSessionWindow ud sessionName today).2.2
        presentDays :=
          (attendanceUpTo ud (resolveSessionWindow ud sessionName today).1 today).1
        totalWorkingDays :=
          (attendanceUpTo ud (resolveSessionWindow ud sessionName today).1 today).2 } := by
  simp only [calculateSessionAttendance, attendanceUpTo]
  rw [sessionLoop_clamp ud (resolveSessionWindow ud sessionName today).2.1 today
    (Nat.le_of_lt h) (resolveSessionWindow ud sessionName today).1 (0, 0)]

/-- Witness for C3: a selected session ending on day 300 queried on day
200. -/
theorem sessionAttendance_clamps_witness :
    200 < (resolveSessionWindow clampDoc none 200).2.1
    ∧ calculateSessionAttendance clampDoc none 200 =
      { percentage :=
          if 0 < (attendanceUpTo clampDoc (resolveSessionWindow clampDoc none 200).1 200).2
          then roundPct
            (attendanceUpTo clampDoc (resolveSessionWindow clampDoc none 200).1 200).1
            (attendanceUpTo clampDoc (resolveSessionWindow clampDoc none 200).1 200).2
          else 0
        sessionName := (resolveSessionWindow clampDoc none 200).2.2
        presentDays :=
          (attendanceUpTo clampDoc (resolveSessionWindow clampDoc none 200).1 200).1
        totalWorkingDays :=
          (attendanceUpTo clampDoc (resolveSessionWindow clampDoc none 200).1 200).2 } :=
  ⟨by decide, sessionAttendance_clamps_to_today clampDoc none 200 (by decide)⟩

/-- On a nonempty list whose find succeeds, setAlexaPresetSession returns
the ok result with every isSelected recomputed against the found code. -/
theorem setAlexaPresetSession_of_find (sessions : List Session) (id : String)
    (found : Session) (hne : ¬ sessions.isEmpty = true)
    (hf : sessions.find? (presetPred id) = some found) :
    setAlexaPresetSession sessions id =
      PresetResult.ok
        (sessions.map (fun s => { s with isSelected := s.code == found.code }))
        found := by
  unfold setAlexaPresetSession
  rw [if_neg hne, hf]

/-- C2 counterexample: with two sessions sharing the code "c", resolving
"c" succeeds but the resulting list has two isSelected sessions, not
exactly one — the claim as stated fails on duplicate codes. -/
theorem setPreset_duplicate_codes_cex :
    okSelectedCount (setAlexaPresetSession dupCodeSessions "c") = some 2 := by
  rfl

/-- C2 amended: when the session codes are pairwise distinct and setPreset
resolves successfully, the resulting list has exactly one isSelected
session, namely the matched session (with its flag set), and calling
setPreset again with the same identifier returns the very same list with
the same unique selected entry. -/
theorem setPreset_unique_and_idempotent (sessions : List Session)
    (id : String) (l : List Session) (found : Session)
    (hnd : (sessions.map (fun s => s.code)).Nodup)
    (h : setAlexaPresetSession sessions id = PresetResult.ok l found) :
    l.filter (fun s => s.isSelected) = [{ found with isSelected := true }]
    ∧ setAlexaPresetSession l id =
        PresetResult.ok l { found with isSelected := true } := by
  unfold setAlexaPresetSession at h
  by_cases he : sessions.isEmpty = true
  · rw [if_pos he] at h; cases h
  · rw [if_neg he] at h
    cases hf : sessions.find? (presetPred id) with
    | none => rw [hf] at h; cases h
    | some fnd =>
      rw [hf] at h
      have h1 : sessions.map
          (fun s => { s with isSelected := s.code == fnd.code }) = l := by
        injection h
      have h2 : fnd = found := by injection h
      subst h2
      subst h1
      have hmem : fnd ∈ sessions := List.mem_of_find?_eq_some hf
      have hb : (fnd.code == fnd.code) = true := beq_self_eq_true fnd.code
      constructor
      · rw [filter_selected_map fnd sessions,
            filter_code_singleton fnd sessions hnd hmem]
        simp
      · have hfe : sessions ≠ [] := by
          intro e
          subst e
          exact he rfl
        have hle : ¬ ((sessions.map
            (fun s => { s with isSelected := s.code == fnd.code })).isEmpty = true) := by
          cases sessions with
          | nil => exact absurd rfl hfe
          | cons a t => simp [List.isEmpty]
        have hff : ({ fnd with isSelected := fnd.code == fnd.code } : Session)
            = { fnd with isSelected := true } := by rw [hb]
        have hf2 : (sessions.map
            (fun s => { s with isSelected := s.code == fnd.code })).find?
              (presetPred id)
            = some ({ fnd with isSelected := fnd.code == fnd.code }) := by
          rw [find?_map_invariant (fun s => { s with isSelected := s.code == fnd.code })
            (presetPred id) (fun s => rfl) sessions, hf, Option.map_some']
        have hres := setAlexaPresetSession_of_find
          (sessions.map (fun s => { s with isSelected := s.code == fnd.code })) id
          ({ fnd with isSelected := fnd.code == fnd.code }) hle hf2
        rw [hres]
        have hcomp : (sessions.map
              (fun s => { s with isSelected := s.code == fnd.code })).map
              (fun s => { s with isSelected :=
                s.code == ({ fnd with isSelected := fnd.code == fnd.code } : Session).code })
            = sessions.map (fun s => { s with isSelected := s.code == fnd.code }) := by
          rw [List.map_map]
          exact List.map_congr_left (fun s _ => rfl)
        rw [hcomp, hff]

/-- Witness for the amended C2 on a concrete two-session list with
distinct codes. -/
theorem setPreset_unique_witness :
    ((presetDemo.map (fun s => s.code)).Nodup
      ∧ setAlexaPresetSession presetDemo "fall" =
          PresetResult.ok presetDemoUpd presetDemoFound)
    ∧ (presetDemoUpd.filter (fun s => s.isSelected) =
          [{ presetDemoFound with isSelected := true }]
        ∧ setAlexaPresetSession presetDemoUpd "fall" =
            PresetResult.ok presetDemoUpd { presetDemoFound with isSelected := true }) :=
  ⟨⟨by decide, by decide⟩,
   setPreset_unique_and_idempotent presetDemo "fall" presetDemoUpd
     presetDemoFound (by decide) (by decide)⟩

/-- C5: when the list contains a session whose name equals the given name
case-insensitively, upsert replaces instead of appending: the list length
is unchanged, the result contains an entry with the given name and the
new start and end dates, and the final list is sorted descending by
createdAt. -/
theorem saveSession_upsert_replaces (sessions : List Session)
    (sessionName : String) (startDate endDate : Nat) (setAsPreset : Bool)
    (rand : String) (now : Nat)
    (h : ∃ s ∈ sessions, lowerStr s.name = lowerStr sessionName) :
    (saveSession sessions sessionName startDate endDate setAsPreset rand now).length
      = sessions.length
    ∧ (∃ s ∈ saveSession sessions sessionName startDate endDate setAsPreset rand now,
        s.name = sessionName ∧ s.startDate = some startDate
        ∧ s.endDate = some endDate)
    ∧ List.Sorted createdGe
        (saveSession sessions sessionName startDate endDate setAsPreset rand now) := by
  obtain ⟨s0, hs0, hname⟩ := h
  have hmatch : ∃ s ∈ sessions,
      saveMatch sessionName (generateSessionCode sessionName rand) s = true := by
    refine ⟨s0, hs0, ?_⟩
    unfold saveMatch
    rw [hname, beq_self_eq_true]
    rfl
  cases setAsPreset with
  | false =>
    simp only [saveSession, Bool.false_eq_true, if_false]
    refine ⟨?_, ?_, List.sorted_insertionSort createdGe _⟩
    · rw [(List.perm_insertionSort createdGe _).length_eq]
      exact upsertEntry_length _ _ sessions hmatch
    · refine ⟨_, ((List.perm_insertionSort createdGe _).mem_iff).mpr
        (upsertEntry_mem _ _ sessions), rfl, rfl, rfl⟩
  | true =>
    simp only [saveSession, if_true]
    refine ⟨?_, ?_, List.sorted_insertionSort createdGe _⟩
    · rw [(List.perm_insertionSort createdGe _).length_eq, List.length_map]
      exact upsertEntry_length _ _ sessions hmatch
    · refine ⟨_, ((List.perm_insertionSort createdGe _).mem_iff).mpr
        (List.mem_map.mpr ⟨_, upsertEntry_mem _ _ sessions, rfl⟩), rfl, rfl, rfl⟩

/-- Witness for C5 on a list containing a "Fall" session, saved again as
"fall". -/
theorem saveSession_upsert_witness :
    (∃ s ∈ fallSessions, lowerStr s.name = lowerStr "fall")
    ∧ ((saveSession fallSessions "fall" 40 50 false "ab12" 9).length
        = fallSessions.length
      ∧ (∃ s ∈ saveSession fallSessions "fall" 40 50 false "ab12" 9,
          s.name = "fall" ∧ s.startDate = some 40 ∧ s.endDate = some 50)
      ∧ List.Sorted createdGe (saveSession fallSessions "fall" 40 50 false "ab12" 9)) :=
  ⟨by decide,
   saveSession_upsert_replaces fallSessions "fall" 40 50 false "ab12" 9 (by decide)⟩

/-- C6 counterexample: re-saving the session named "Term" does not keep
its stored code "oldcode1" — the replacement entry carries the freshly
generated code "termzz12". -/
theorem saveSession_code_not_kept :
    (saveSession [oldTermSession] "Term" 1 2 false "zz12" 9).map (fun s => s.code)
      = ["termzz12"]
    ∧ oldTermSession.code = "oldcode1"
    ∧ ("termzz12" : String) ≠ "oldcode1" :=
  ⟨by rfl, rfl, by decide⟩

/-- C6 amended: upsert generates a code — the lower-cased alphanumeric
prefix of the name truncated to 8 characters plus the random suffix — on
every call, not only for new sessions: when an existing session matches
by case-insensitive name or by the generated code, the list keeps its
length and the replacement entry carries the newly generated code (so the
code is not stable across re-saves). -/
theorem saveSession_fresh_code (sessions : List Session)
    (sessionName : String) (startDate endDate : Nat) (setAsPreset : Bool)
    (rand : String) (now : Nat)
    (h : ∃ s ∈ sessions,
        saveMatch sessionName (generateSessionCode sessionName rand) s = true) :
    generateSessionCode sessionName rand = codeBase sessionName ++ rand
    ∧ (codeBase sessionName).length ≤ 8
    ∧ (∀ c ∈ (codeBase sessionName).toList, c.isLower = true ∨ c.isDigit = true)
    ∧ (saveSession sessions sessionName startDate endDate setAsPreset rand now).length
        = sessions.length
    ∧ (∃ s ∈ saveSession sessions sessionName startDate endDate setAsPreset rand now,
        s.code = generateSessionCode sessionName rand ∧ s.name = sessionName
        ∧ s.startDate = some startDate ∧ s.endDate = some endDate) := by
  refine ⟨rfl, ?_, ?_, ?_, ?_⟩
  · show (((lowerStr sessionName).toList.filter
      (fun c => c.isLower || c.isDigit)).take 8).length ≤ 8
    exact List.length_take_le 8 _
  · intro c hc
    have hc' : c ∈ (lowerStr sessionName).toList.filter
        (fun c => c.isLower || c.isDigit) := List.mem_of_mem_take hc
    have hp : (c.isLower || c.isDigit) = true := (List.mem_filter.mp hc').2
    rcases (Bool.or_eq_true c.isLower c.isDigit) ▸ hp with h1 | h2
    · exact Or.inl h1
    · exact Or.inr h2
  · cases setAsPreset with
    | false =>
      simp only [saveSession, Bool.false_eq_true, if_false]
      rw [(List.perm_insertionSort createdGe _).length_eq]
      exact upsertEntry_length _ _ sessions h
    | true =>
      simp only [saveSession, if_true]
      rw [(List.perm_insertionSort createdGe _).length_eq, List.length_map]
      exact upsertEntry_length _ _ sessions h
  · cases setAsPreset with
    | false =>
      simp only [saveSession, Bool.false_eq_true, if_false]
      exact ⟨_, ((List.perm_insertionSort createdGe _).mem_iff).mpr
        (upsertEntry_mem _ _ sessions), rfl, rfl, rfl, rfl⟩
    | true =>
      simp only [saveSession, if_true]
      exact ⟨_, ((List.perm_insertionSort createdGe _).mem_iff).mpr
        (List.mem_map.mpr ⟨_, upsertEntry_mem _ _ sessions, rfl⟩), rfl, rfl, rfl, rfl⟩

/-- Witness for the amended C6: re-saving "Term" with random suffix
"zz12". -/
theorem saveSession_fresh_code_witness :
    (∃ s ∈ [oldTermSession],
        saveMatch "Term" (generateSessionCode "Term" "zz12") s = true)
    ∧ (generateSessionCode "Term" "zz12" = codeBase "Term" ++ "zz12"
      ∧ (codeBase "Term").length ≤ 8
      ∧ (∀ c ∈ (codeBase "Term").toList, c.isLower = true ∨ c.isDigit = true)
      ∧ (saveSession [oldTermSession] "Term" 3 4 false "zz12" 9).length
          = ([oldTermSession] : List Session).length
      ∧ (∃ s ∈ saveSession [oldTermSession] "Term" 3 4 false "zz12" 9,
          s.code = generateSessionCode "Term" "zz12" ∧ s.name = "Term"
          ∧ s.startDate = some 3 ∧ s.endDate = some 4)) :=
  ⟨by decide,
   saveSession_fresh_code [oldTermSession] "Term" 3 4 false "zz12" 9 (by decide)⟩

/-- C7 counterexample: setAlexaPresetSession resolves "abc" to the
earlier-listed session whose name matches ("zzzz"), not to the
later-listed session whose code is exactly "abc" — it does not try the
code match first. -/
theorem presetResolution_name_shadows_code :
    okFoundCode (setAlexaPresetSession shadowedCodeSessions "abc") = some "zzzz"
    ∧ (shadowedCodeSessions.map (fun s => s.code)).contains "abc" = true
    ∧ ("zzzz" : String) ≠ "abc" :=
  ⟨by rfl, by rfl, by decide⟩

/-- C7 amended: the resolution of SelectSessionIntentHandler does try an
exact code match over the whole list first: whenever some session's code
equals the identifier, the resolved outcome is byCode with a session
whose code equals the identifier, regardless of earlier name matches.
(setAlexaPresetSession instead resolves with a single first-match scan of
(code OR name), so there an earlier name match wins — see the
counterexample.) -/
theorem resolveSelect_code_first (sessions : List Session) (id : String)
    (h : ∃ s ∈ sessions, s.code = id) :
    ∃ s, resolveSelect sessions id = SelectResolution.byCode s
      ∧ s ∈ sessions ∧ s.code = id := by
  have hs : (sessions.find? (fun s => s.code == id)).isSome = true := by
    rw [List.find?_isSome]
    obtain ⟨s, hsm, he⟩ := h
    exact ⟨s, hsm, by rw [he]; exact beq_self_eq_true id⟩
  obtain ⟨s, hfs⟩ := Option.isSome_iff_exists.mp hs
  refine ⟨s, ?_, List.mem_of_find?_eq_some hfs, ?_⟩
  · unfold resolveSelect
    rw [hfs]
  · simpa using List.find?_some hfs

/-- Witness for the amended C7: the SelectSessionIntentHandler resolution
on the shadowed list does pick the code match. -/
theorem resolveSelect_code_first_witness :
    ∃ s, resolveSelect shadowedCodeSessions "abc" = SelectResolution.byCode s
      ∧ s ∈ shadowedCodeSessions ∧ s.code = "abc" :=
  resolveSelect_code_first shadowedCodeSessions "abc" (by decide)

/-- C8: with two or more case-insensitive name matches and no exact code
match, the SelectSessionIntentHandler resolution returns the ambiguous
outcome carrying the whole list of matching sessions (hence all their
codes and date ranges) instead of silently picking one; and resolving by
a session's exact (unique) code returns exactly that session. -/
theorem resolveSelect_ambiguity_contract (sessions : List Session)
    (id : String) (s : Session) :
    ((∀ t ∈ sessions, t.code ≠ id) → 2 ≤ (nameMatches sessions id).length →
        resolveSelect sessions id =
          SelectResolution.ambiguous (nameMatches sessions id))
    ∧ (s ∈ sessions → (∀ t ∈ sessions, t.code = s.code → t = s) →
        resolveSelect sessions s.code = SelectResolution.byCode s) := by
  constructor
  · intro hnc hlen
    have hf : sessions.find? (fun t => t.code == id) = none := by
      rw [List.find?_eq_none]
      intro t ht hc
      exact hnc t ht (by simpa using hc)
    unfold resolveSelect
    rw [hf]
    cases hm : nameMatches sessions id with
    | nil => rw [hm] at hlen; simp at hlen
    | cons a t =>
      cases t with
      | nil => rw [hm] at hlen; simp at hlen
      | cons b r => rfl
  · intro hmem huni
    have hs : (sessions.find? (fun t => t.code == s.code)).isSome = true := by
      rw [List.find?_isSome]
      exact ⟨s, hmem, beq_self_eq_true s.code⟩
    obtain ⟨t0, hfs⟩ := Option.isSome_iff_exists.mp hs
    have ht0c : t0.code = s.code := by simpa using List.find?_some hfs
    have ht0 : t0 = s := huni t0 (List.mem_of_find?_eq_some hfs) ht0c
    subst ht0
    unfold resolveSelect
    rw [hfs]

/-- Witness for C8: two sessions named "Fall" with distinct codes —
resolving "Fall" is ambiguous with both matches, resolving the second
code picks exactly the second session. -/
theorem resolveSelect_ambiguity_witness :
    resolveSelect fallSessions "Fall" =
      SelectResolution.ambiguous (nameMatches fallSessions "Fall")
    ∧ resolveSelect fallSessions fallSecond.code =
        SelectResolution.byCode fallSecond :=
  ⟨(resolveSelect_ambiguity_contract fallSessions "Fall" fallSecond).1
      (by decide) (by decide),
   (resolveSelect_ambiguity_contract fallSessions fallSecond.code fallSecond).2
      (by decide) (by decide)⟩

/-- C10: re-saving the currently selected session's name with setAsPreset
= false silently drops the Alexa preset: the replacement entry has
isSelected = false, every other session is carried over unchanged (the
result is a permutation of the list with only that entry replaced), and
the resulting list contains no selected session. -/
theorem saveSession_drops_preset (pre post : List Session) (S : Session)
    (sessionName : String) (startDate endDate now : Nat) (rand : String)
    (hSsel : S.isSelected = true)
    (hS : saveMatch sessionName (generateSessionCode sessionName rand) S = true)
    (hpre : ∀ T ∈ pre,
        saveMatch sessionName (generateSessionCode sessionName rand) T = false)
    (hothers : ∀ T, T ∈ pre ∨ T ∈ post → T.isSelected = false) :
    (saveSession (pre ++ S :: post) sessionName startDate endDate false rand now).Perm
      (pre ++ ({ name := sessionName,
                 code := generateSessionCode sessionName rand,
                 startDate := some startDate, endDate := some endDate,
                 createdAt := now, isSelected := false } : Session) :: post)
    ∧ ∀ T ∈ saveSession (pre ++ S :: post) sessionName startDate endDate false rand now,
        T.isSelected = false := by
  have hsave : saveSession (pre ++ S :: post) sessionName startDate endDate false rand now
      = List.insertionSort createdGe
          (pre ++ ({ name := sessionName,
                     code := generateSessionCode sessionName rand,
                     startDate := some startDate, endDate := some endDate,
                     createdAt := now, isSelected := false } : Session) :: post) := by
    simp only [saveSession, Bool.false_eq_true, if_false]
    rw [upsertEntry_decomp _ _ S hS pre post hpre]
  constructor
  · rw [hsave]
    exact List.perm_insertionSort createdGe _
  · intro T hT
    rw [hsave] at hT
    have hT2 := ((List.perm_insertionSort createdGe _).mem_iff).mp hT
    rcases List.mem_append.mp hT2 with hl | hr
    · exact hothers T (Or.inl hl)
    · rcases List.mem_cons.mp hr with rfl | hrr
      · rfl
      · exact hothers T (Or.inr hrr)

/-- Witness for C10: re-saving the selected "Term" session as "term"
without setAsPreset leaves no selected session. -/
theorem saveSession_drops_preset_witness :
    (saveSession ([] ++ selectedTermSession :: []) "term" 1 2 false "zz99" 9).Perm
      ([] ++ ({ name := "term", code := generateSessionCode "term" "zz99",
                startDate := some 1, endDate := some 2,
                createdAt := 9, isSelected := false } : Session) :: [])
    ∧ ∀ T ∈ saveSession ([] ++ selectedTermSession :: []) "term" 1 2 false "zz99" 9,
        T.isSelected = false :=
  saveSession_drops_preset [] [] selectedTermSession "term" 1 2 9 "zz99"
    rfl (by decide)
    (fun T hT => absurd hT (List.not_mem_nil T))
    (fun T hT => by rcases hT with h | h <;> exact absurd h (List.not_mem_nil T))

end Attendance
